import Mathlib

/-!
Verification of the Figgie game engine (src/backend/game_logic.py and
src/backend/classes.py) against its natural-language specification.

Python dictionaries are embedded as association lists (`List (key × value)`):
`dictGet` models `d[k]` returning `none` for a missing key (a Python
`KeyError`), `dictSet` models `d[k] = v` (replacing the first entry with that
key, appending when absent, exactly pydict semantics for unique keys), and
`dictModify` models the read-modify-write `d[k] += ...`, again with `none` for
a missing key.  The engine mutates its dictionaries in place, so an uncaught
`KeyError` in the middle of a settlement leaves the mutations already applied:
operations return a `PyResult`, whose `exn` case carries the game state
exactly as mutated up to the raise site.  The per-suit order book dictionaries
are total functions `Suit → SampleRecord`, faithful because the source
initialises both books with exactly the four suit keys and only ever writes
those keys.
-/

inductive Suit where
  | hearts
  | diamonds
  | clubs
  | spades
deriving DecidableEq, Repr

def suitName : Suit → String
  | Suit.hearts => "hearts"
  | Suit.diamonds => "diamonds"
  | Suit.clubs => "clubs"
  | Suit.spades => "spades"

/-- Python `d[k]` on an association list: the first binding of `k`, `none` when
absent (a `KeyError`). -/
def dictGet {α β : Type} [DecidableEq α] : List (α × β) → α → Option β
  | [], _ => none
  | (k, v) :: rest, a => if a = k then some v else dictGet rest a

/-- Python `d[k] = v`: replace the first binding of `k`, append when absent. -/
def dictSet {α β : Type} [DecidableEq α] : List (α × β) → α → β → List (α × β)
  | [], a, b => [(a, b)]
  | (k, v) :: rest, a, b => if a = k then (k, b) :: rest else (k, v) :: dictSet rest a b

/-- Python `d[k] = f(d[k])` (e.g. `d[k] += x`): `none` when `k` is absent. -/
def dictModify {α β : Type} [DecidableEq α] (f : β → β) : List (α × β) → α → Option (List (α × β))
  | [], _ => none
  | (k, v) :: rest, a =>
    if a = k then some ((k, f v) :: rest) else (dictModify f rest a).map ((k, v) :: ·)

/-- Python `d[k1][k2] = f(d[k1][k2])` on a dict of dicts (two `KeyError` sites). -/
def dict2Modify {α γ β : Type} [DecidableEq α] [DecidableEq γ]
    (d : List (α × List (γ × β))) (a : α) (c : γ) (f : β → β) :
    Option (List (α × List (γ × β))) := do
  let h ← dictGet d a
  let h2 ← dictModify f h c
  pure (dictSet d a h2)

/-- classes.py `SampleRecord`: a resting order; `price = -1` is the empty
sentinel. -/
structure SampleRecord where
  price : Int := -1
  player_id : String := ""
  order_id : Int := -1
deriving DecidableEq, Repr

/-- classes.py `OrderBook`: one best bid and one best ask per suit. -/
structure OrderBook where
  bids : Suit → SampleRecord
  asks : Suit → SampleRecord

/-- Pointwise update of one suit's record in a book side. -/
def bookSet (f : Suit → SampleRecord) (s : Suit) (r : SampleRecord) : Suit → SampleRecord :=
  fun s2 => if s2 = s then r else f s2

/-- classes.py `Order`.  The source annotates `is_bid` as `bool | None`; the
claims only concern orders with an explicit boolean, so it is a `Bool` here. -/
structure Order where
  is_bid : Bool
  suit : Suit
  price : Int := -1
  player_id : String := ""
deriving DecidableEq, Repr

/-- classes.py `GameState` (the fields read or written by the verified
operations; `goal_suit` is a `Suit` because every claim concerns post-deal
states, where the source has set it to one of the four suit strings). -/
structure GameState where
  started : Bool := false
  countdown : Int := 10
  player2cards : List (String × List (Suit × Int)) := []
  player2card_count : List (String × Int) := []
  goal_suit : Suit := Suit.hearts
  player2cash : List (String × Int) := []
  orderbook : OrderBook := ⟨fun _ => {}, fun _ => {}⟩

/-- A Python value appearing in an event payload dict. -/
inductive PyVal where
  | str : String → PyVal
  | int : Int → PyVal
deriving DecidableEq, Repr

/-- The payload of the `transaction_processed` event emitted by
`execute_trade` and `process_accept_order` (game_logic.py lines 170-178,
211-219, 242-250): keys `from`, `to`, `suit`, `amount`. -/
def transactionPayload (seller buyer : String) (su : Suit) (amount : Int) :
    List (String × PyVal) :=
  [("from", PyVal.str seller), ("to", PyVal.str buyer),
   ("suit", PyVal.str (suitName su)), ("amount", PyVal.int amount)]

/-- websocket_game.py `WebSocketGame.on_transaction_processed` (lines 116-119):
the handler reads `data["message"]` and broadcasts that value.  The result is
the value it would broadcast; `none` models the `KeyError` raised when the
payload has no `"message"` key, which crashes the fire-and-forget handler task
so that nothing is broadcast. -/
def on_transaction_processed (data : List (String × PyVal)) : Option PyVal :=
  dictGet data "message"

/-- Result of a Python call against in-place mutated state: `ok` is a normal
return; `exn st` is an uncaught `KeyError`, with `st` the game state exactly
as mutated before the raise (the source mutates dictionaries in place, so
mutations already applied persist across the exception). -/
inductive PyResult (α : Type) where
  | ok : α → PyResult α
  | exn : GameState → PyResult α

/-- Result of an engine operation: the new state, the status message reported
to the acting player, and the `transaction_processed` payload when a trade
settled (`none` when no trade was executed). -/
structure TradeFx where
  st : GameState
  message : String
  tx : Option (List (String × PyVal))

/-- game_logic.py `Game.execute_trade` (lines 152-185).  Each dictionary
read-modify-write can raise a `KeyError` (missing player or suit key); the
`exn` results carry the state with exactly the in-place mutations the source
has committed before the raising line. -/
def execute_trade (st : GameState) (buyer_id seller_id : String) (suit : Suit) (price : Int) :
    PyResult TradeFx :=
  match dictGet st.player2cards seller_id with
  | none => .exn st
  | some sellerHand =>
  match dictGet sellerHand suit with
  | none => .exn st
  | some sellerCount =>
  if sellerCount ≤ 0 then
    .ok ⟨st, "Trade not executed, seller does not have enough cards", none⟩
  else
  match dictGet st.player2cash buyer_id with
  | none => .exn st
  | some buyerCash =>
  if buyerCash < price then
    .ok ⟨st, "Trade not executed, buyer does not have enough cash", none⟩
  else
  match dictModify (· + price) st.player2cash seller_id with
  | none => .exn st
  | some cash1 =>
  match dictModify (· - price) cash1 buyer_id with
  | none => .exn { st with player2cash := cash1 }
  | some cash2 =>
  match dict2Modify st.player2cards seller_id suit (· - 1) with
  | none => .exn { st with player2cash := cash2 }
  | some cards1 =>
  match dict2Modify cards1 buyer_id suit (· + 1) with
  | none => .exn { st with player2cash := cash2, player2cards := cards1 }
  | some cards2 =>
  match dictModify (· - 1) st.player2card_count seller_id with
  | none => .exn { st with player2cash := cash2, player2cards := cards2 }
  | some cnt1 =>
  match dictModify (· + 1) cnt1 buyer_id with
  | none => .exn { st with player2cash := cash2, player2cards := cards2,
                           player2card_count := cnt1 }
  | some cnt2 =>
  .ok ⟨{ st with
          player2cash := cash2,
          player2cards := cards2,
          player2card_count := cnt2,
          orderbook := ⟨bookSet st.orderbook.bids suit {}, bookSet st.orderbook.asks suit {}⟩ },
       "Trade executed successfully",
       some (transactionPayload seller_id buyer_id suit price)⟩

/-- game_logic.py `Game.process_add_order` (lines 108-150).  The message field
is the payload of the `add_order_processed` event emitted to the player. -/
def process_add_order (st : GameState) (order : Order) : PyResult TradeFx :=
  if order.is_bid then
    let current_ask := st.orderbook.asks order.suit
    if current_ask.price ≠ -1 ∧ order.price ≥ current_ask.price then
      match execute_trade st order.player_id current_ask.player_id order.suit current_ask.price with
      | .exn st2 => .exn st2
      | .ok fx => .ok ⟨fx.st, "Order matched and executed", fx.tx⟩
    else
      let current_bid := st.orderbook.bids order.suit
      if order.price > current_bid.price then
        .ok ⟨{ st with orderbook :=
                 { st.orderbook with
                     bids := bookSet st.orderbook.bids order.suit
                       ⟨order.price, order.player_id, 1⟩ } },
             "Order added", none⟩
      else
        .ok ⟨st, "Order added", none⟩
  else
    let current_bid := st.orderbook.bids order.suit
    if current_bid.price ≠ -1 ∧ order.price ≤ current_bid.price then
      match execute_trade st current_bid.player_id order.player_id order.suit order.price with
      | .exn st2 => .exn st2
      | .ok fx => .ok ⟨fx.st, "Order matched and executed", fx.tx⟩
    else
      let current_ask := st.orderbook.asks order.suit
      if current_ask.price = -1 ∨ order.price < current_ask.price then
        .ok ⟨{ st with orderbook :=
                 { st.orderbook with
                     asks := bookSet st.orderbook.asks order.suit
                       ⟨order.price, order.player_id, 1⟩ } },
             "Order added", none⟩
      else
        .ok ⟨st, "Order added", none⟩

/-- game_logic.py `Game.process_accept_order` (lines 187-267), mirroring the
source's order of checks and in-place updates in each branch.  The message
field is the payload of the `accept_order_processed` event; `exn` results
carry the state with exactly the in-place mutations committed before the
raising line. -/
def process_accept_order (st : GameState) (order : Order) : PyResult TradeFx :=
  if order.is_bid then
    let current_bid := st.orderbook.bids order.suit
    let seller_id := order.player_id
    let buyer_id := current_bid.player_id
    let price := current_bid.price
    if seller_id = buyer_id then
      .ok ⟨st, "Order not accepted, cannot accept own bid", none⟩
    else
      match dictGet st.player2cards seller_id with
      | none => .exn st
      | some sellerHand =>
      match dictGet sellerHand order.suit with
      | none => .exn st
      | some sellerCount =>
      if sellerCount ≤ 0 then
        .ok ⟨st, "Order not accepted, seller does not have enough cards", none⟩
      else
      match dictGet st.player2cash buyer_id with
      | none => .exn st
      | some buyerCash =>
      if buyerCash < price then
        .ok ⟨st, "Order not accepted, buyer does not have enough cash", none⟩
      else
      match dictModify (· + price) st.player2cash seller_id with
      | none => .exn st
      | some cash1 =>
      match dictModify (· - price) cash1 buyer_id with
      | none => .exn { st with player2cash := cash1 }
      | some cash2 =>
      match dict2Modify st.player2cards seller_id order.suit (· - 1) with
      | none => .exn { st with player2cash := cash2 }
      | some cards1 =>
      match dict2Modify cards1 buyer_id order.suit (· + 1) with
      | none => .exn { st with player2cash := cash2, player2cards := cards1 }
      | some cards2 =>
      match dictModify (· - 1) st.player2card_count seller_id with
      | none => .exn { st with player2cash := cash2, player2cards := cards2 }
      | some cnt1 =>
      match dictModify (· + 1) cnt1 buyer_id with
      | none => .exn { st with player2cash := cash2, player2cards := cards2,
                               player2card_count := cnt1 }
      | some cnt2 =>
      .ok ⟨{ st with
              player2cash := cash2,
              player2cards := cards2,
              player2card_count := cnt2,
              orderbook := ⟨bookSet st.orderbook.bids order.suit {},
                            bookSet st.orderbook.asks order.suit {}⟩ },
           "Order accepted",
           some (transactionPayload seller_id buyer_id order.suit price)⟩
  else
    let current_ask := st.orderbook.asks order.suit
    let buyer_id := order.player_id
    let seller_id := current_ask.player_id
    let price := current_ask.price
    if buyer_id = seller_id then
      .ok ⟨st, "Order not accepted, cannot accept own ask", none⟩
    else
      match dictGet st.player2cards seller_id with
      | none => .exn st
      | some sellerHand =>
      match dictGet sellerHand order.suit with
      | none => .exn st
      | some sellerCount =>
      if sellerCount ≤ 0 then
        .ok ⟨st, "Order not accepted, seller does not have enough cards", none⟩
      else
      match dictGet st.player2cash buyer_id with
      | none => .exn st
      | some buyerCash =>
      if buyerCash < price then
        .ok ⟨st, "Order not accepted, buyer does not have enough cash", none⟩
      else
      match dictModify (· - price) st.player2cash buyer_id with
      | none => .exn st
      | some cash1 =>
      match dictModify (· + price) cash1 seller_id with
      | none => .exn { st with player2cash := cash1 }
      | some cash2 =>
      match dict2Modify st.player2cards buyer_id order.suit (· + 1) with
      | none => .exn { st with player2cash := cash2 }
      | some cards1 =>
      match dict2Modify cards1 seller_id order.suit (· - 1) with
      | none => .exn { st with player2cash := cash2, player2cards := cards1 }
      | some cards2 =>
      match dictModify (· + 1) st.player2card_count buyer_id with
      | none => .exn { st with player2cash := cash2, player2cards := cards2 }
      | some cnt1 =>
      match dictModify (· - 1) cnt1 seller_id with
      | none => .exn { st with player2cash := cash2, player2cards := cards2,
                               player2card_count := cnt1 }
      | some cnt2 =>
      .ok ⟨{ st with
              player2cash := cash2,
              player2cards := cards2,
              player2card_count := cnt2,
              orderbook := ⟨bookSet st.orderbook.bids order.suit {},
                            bookSet st.orderbook.asks order.suit {}⟩ },
           "Order accepted",
           some (transactionPayload seller_id buyer_id order.suit price)⟩

/-- classes.py `Constants.suits`. -/
def Constants.suits : List Suit := [Suit.hearts, Suit.diamonds, Suit.clubs, Suit.spades]

/-- classes.py `Constants.suit2colors`. -/
def Constants.suit2colors : Suit → String
  | Suit.hearts => "red"
  | Suit.diamonds => "red"
  | Suit.clubs => "black"
  | Suit.spades => "black"

/-- classes.py `Constants.color2suits`; the source only ever looks up the keys
`"red"` and `"black"`. -/
def Constants.color2suits (c : String) : List Suit :=
  if c = "red" then [Suit.hearts, Suit.diamonds]
  else if c = "black" then [Suit.clubs, Suit.spades]
  else []

/-- game_logic.py lines 44-46: the same-colour suit other than the goal suit
(`[s for s in color2suits[color] if s != goal_suit][0]`; the filtered list is
provably non-empty, so the `headD` default is never used). -/
def same_color_other_suit (goal_suit : Suit) : Suit :=
  (((Constants.color2suits (Constants.suit2colors goal_suit))).filter
    (fun s => s ≠ goal_suit)).headD goal_suit

/-- A `random.shuffle` of a two-element list, determined by which of the two
possible permutations it produced. -/
def shuffle2 {α : Type} (swap : Bool) (l : List α) : List α :=
  if swap then l.reverse else l

/-- game_logic.py `Game.get_suit_distribution` (lines 40-59), with the three
random draws as explicit parameters: `pickEight` is the
`random.choice([8, 10])` outcome, `swapSuits` and `swapCounts` are the
permutations produced by the two `random.shuffle` calls on the two-element
lists `remaining_suits` and `remaining_counts`. -/
def get_suit_distribution (goal_suit : Suit) (pickEight swapSuits swapCounts : Bool) :
    List (Suit × Int) :=
  let goal_suit_counts : Int := if pickEight then 8 else 10
  let partner := same_color_other_suit goal_suit
  let base : List (Suit × Int) := [(goal_suit, goal_suit_counts), (partner, 12)]
  let remaining_suits := Constants.suits.filter (fun s => ¬(s = goal_suit ∨ s = partner))
  let remaining_counts : List Int := if goal_suit_counts = 8 then [10, 10] else [8, 10]
  base ++ (shuffle2 swapSuits remaining_suits).zip (shuffle2 swapCounts remaining_counts)

/-- The Python slice `l[0::n]`: every `n`-th element starting at the head. -/
def sliceStep {α : Type} (n : Nat) : List α → List α
  | [] => []
  | a :: l => a :: sliceStep n (l.drop (n - 1))
  termination_by l => l.length
  decreasing_by simp only [List.length_drop, List.length_cons]; omega

/-- game_logic.py line 72, `{suit: cards.count(suit) for suit in set(cards)}`:
the per-suit tally of a dealt hand, keyed exactly by the suits that occur
(`dedup` fixes one enumeration order of the Python set). -/
def handOf (cards : List Suit) : List (Suit × Int) :=
  cards.dedup.map (fun s => (s, (cards.count s : Int)))

/-- game_logic.py `Game.distribute_cards` (lines 66-74): player `i` (in dict
insertion order) receives the slice `all_cards[i::N]`, tallied per suit. -/
def distribute_cards (all_cards : List Suit) (players : List String) :
    List (String × List (Suit × Int)) :=
  players.enum.map (fun ip => (ip.2, handOf (sliceStep players.length (all_cards.drop ip.1))))

/-- The score used at game end: goal-suit cards × 10 + cash (with Python's
`cards.get(goal_suit, 0)` and a `d.getD 0` stand-in used only in statements;
inside `calculate_winner` the cash lookup is the raising `player2cash[pid]`). -/
def scoreOf (st : GameState) (pid : String) (cards : List (Suit × Int)) : Int :=
  (dictGet cards st.goal_suit).getD 0 * 10 + (dictGet st.player2cash pid).getD 0

/-- The loop of game_logic.py `Game.calculate_winner` (lines 306-313), folding
over the `player2cards` items with the running `(winner, max_score)`;
`none` models the `KeyError` when a player has no cash entry. -/
def winnerLoop (st : GameState) :
    List (String × List (Suit × Int)) → String → Int → Option (String × Int)
  | [], w, m => some (w, m)
  | (pid, cards) :: rest, w, m =>
    match dictGet st.player2cash pid with
    | none => none
    | some cash =>
      let score := (dictGet cards st.goal_suit).getD 0 * 10 + cash
      if m < score then winnerLoop st rest pid score else winnerLoop st rest w m

/-- game_logic.py `Game.calculate_winner` (lines 303-314). -/
def calculate_winner (st : GameState) : Option (String × Int) :=
  winnerLoop st st.player2cards "" (-1)

/-- Total cash over all players (spec section 8: conservation across trades). -/
def cashTotal (st : GameState) : Int :=
  (st.player2cash.map Prod.snd).sum

/-- Total count of one suit over all players' hands, a missing suit key
counting as 0. -/
def suitTotal (st : GameState) (su : Suit) : Int :=
  (st.player2cards.map (fun pc => (dictGet pc.2 su).getD 0)).sum

/-! ### Concrete example states for witnesses and counterexamples -/

/-- An empty order book. -/
def emptyBook : OrderBook := ⟨fun _ => {}, fun _ => {}⟩

/-- Post-deal state: player `A` rests a bid of 5 on hearts; both players hold
cards of every suit they are about to trade and 350 in cash. -/
def stateBidA : GameState :=
  { player2cards := [("A", [(Suit.hearts, 3), (Suit.spades, 2)]), ("B", [(Suit.hearts, 1)])],
    player2card_count := [("A", 5), ("B", 1)],
    goal_suit := Suit.hearts,
    player2cash := [("A", 350), ("B", 350)],
    orderbook := ⟨bookSet (fun _ => {}) Suit.hearts ⟨5, "A", 1⟩, fun _ => {}⟩ }

/-- Post-deal state: player `B` rests an ask of 5 on hearts and holds one
heart. -/
def stateAskB : GameState :=
  { player2cards := [("A", [(Suit.hearts, 3), (Suit.spades, 2)]), ("B", [(Suit.hearts, 1)])],
    player2card_count := [("A", 5), ("B", 1)],
    goal_suit := Suit.hearts,
    player2cash := [("A", 350), ("B", 350)],
    orderbook := ⟨fun _ => {}, bookSet (fun _ => {}) Suit.hearts ⟨5, "B", 1⟩⟩ }

/-- Post-deal state: player `B` rests an ask of 5 on hearts but holds zero
hearts (the key is present with value 0, e.g. after selling the last one). -/
def stateAskBEmpty : GameState :=
  { player2cards := [("A", [(Suit.hearts, 3), (Suit.spades, 2)]), ("B", [(Suit.hearts, 0)])],
    player2card_count := [("A", 5), ("B", 0)],
    goal_suit := Suit.hearts,
    player2cash := [("A", 350), ("B", 350)],
    orderbook := ⟨fun _ => {}, bookSet (fun _ => {}) Suit.hearts ⟨5, "B", 1⟩⟩ }

/-- The state whose hands result from dealing the two-card deck
`[hearts, spades]` to players `A`, `B`: `A`'s hand has no spades key and `B`'s
hand has no hearts key. -/
def stateDealt : GameState :=
  { player2cards := distribute_cards [Suit.hearts, Suit.spades] ["A", "B"],
    player2card_count := [("A", 1), ("B", 1)],
    goal_suit := Suit.hearts,
    player2cash := [("A", 350), ("B", 350)],
    orderbook := ⟨fun _ => {}, fun _ => {}⟩ }

/-- The exact result of `process_add_order stateBidA` for the ask
(hearts, 3, "B"): an immediate cross executed at the aggressor's price 3. -/
def crossFxB : TradeFx :=
  { st := { stateBidA with
      player2cash := [("A", 347), ("B", 353)],
      player2cards := [("A", [(Suit.hearts, 4), (Suit.spades, 2)]), ("B", [(Suit.hearts, 0)])],
      player2card_count := [("A", 6), ("B", 0)],
      orderbook := ⟨bookSet stateBidA.orderbook.bids Suit.hearts {},
                    bookSet stateBidA.orderbook.asks Suit.hearts {}⟩ },
    message := "Order matched and executed",
    tx := some (transactionPayload "B" "A" Suit.hearts 3) }

/-- The exact result of `process_add_order stateAskB` for the bid
(hearts, 6, "A"): an immediate cross executed at the resting ask's price 5. -/
def bidCrossFx : TradeFx :=
  { st := { stateAskB with
      player2cash := [("A", 345), ("B", 355)],
      player2cards := [("A", [(Suit.hearts, 4), (Suit.spades, 2)]), ("B", [(Suit.hearts, 0)])],
      player2card_count := [("A", 6), ("B", 0)],
      orderbook := ⟨bookSet stateAskB.orderbook.bids Suit.hearts {},
                    bookSet stateAskB.orderbook.asks Suit.hearts {}⟩ },
    message := "Order matched and executed",
    tx := some (transactionPayload "B" "A" Suit.hearts 5) }

/-- Post-deal state realising C10's missing-key hazard on a settlement path:
the hands are exactly `distribute_cards [hearts, spades] ["B", "A"]` (so `A`
has no hearts key), and `B` rests an ask of 5 on hearts. -/
def statePartial : GameState :=
  { player2cards := [("B", [(Suit.hearts, 1)]), ("A", [(Suit.spades, 1)])],
    player2card_count := [("B", 1), ("A", 1)],
    goal_suit := Suit.hearts,
    player2cash := [("B", 350), ("A", 350)],
    orderbook := ⟨fun _ => {}, bookSet (fun _ => {}) Suit.hearts ⟨5, "B", 1⟩⟩ }

/-- The state `A`'s crossing bid on `statePartial` leaves behind: the cash
transfer and the seller's decrement are committed (game_logic.py lines
159-161), then line 162 raises `KeyError` on `A`'s missing hearts key — card
counts and the order book are never touched, and one heart has vanished. -/
def statePartialAfter : GameState :=
  { statePartial with
      player2cash := [("B", 355), ("A", 345)],
      player2cards := [("B", [(Suit.hearts, 0)]), ("A", [(Suit.spades, 1)])] }

/-! ### Association-list lemmas -/

theorem dictGet_dictSet_self {α β : Type} [DecidableEq α] (a : α) (b : β) :
    ∀ d : List (α × β), dictGet (dictSet d a b) a = some b
  | [] => by simp [dictGet, dictSet]
  | (k, v) :: rest => by
    by_cases h : a = k
    · simp [dictGet, dictSet, h]
    · simp [dictGet, dictSet, h, dictGet_dictSet_self a b rest]

theorem dictGet_dictSet_ne {α β : Type} [DecidableEq α] (a c : α) (b : β) (hne : c ≠ a) :
    ∀ d : List (α × β), dictGet (dictSet d a b) c = dictGet d c
  | [] => by simp [dictGet, dictSet, hne]
  | (k, v) :: rest => by
    by_cases h : a = k
    · subst h
      simp [dictGet, dictSet, hne]
    · by_cases h2 : c = k
      · simp [dictGet, dictSet, h, h2]
      · simp [dictGet, dictSet, h, h2, dictGet_dictSet_ne a c b hne rest]

theorem dictModify_eq_some {α β : Type} [DecidableEq α] {f : β → β} {a : α}
    {d d' : List (α × β)} :
    dictModify f d a = some d' ↔ ∃ v, dictGet d a = some v ∧ d' = dictSet d a (f v) := by
  induction d generalizing d' with
  | nil => simp [dictModify, dictGet]
  | cons kv rest ih =>
    obtain ⟨k, v⟩ := kv
    by_cases h : a = k
    · subst h
      simp [dictModify, dictGet, dictSet, eq_comm]
    · simp only [dictModify, dictGet, dictSet, if_neg h, Option.map_eq_some']
      constructor
      · rintro ⟨r, hr, rfl⟩
        obtain ⟨w, hw, rfl⟩ := ih.mp hr
        exact ⟨w, hw, rfl⟩
      · rintro ⟨w, hw, rfl⟩
        exact ⟨dictSet rest a (f w), ih.mpr ⟨w, hw, rfl⟩, rfl⟩

theorem dictGet_dictModify_self {α β : Type} [DecidableEq α] {f : β → β} {a : α}
    {d d' : List (α × β)} (h : dictModify f d a = some d') :
    dictGet d' a = (dictGet d a).map f := by
  obtain ⟨v, hv, rfl⟩ := dictModify_eq_some.mp h
  simp [hv, dictGet_dictSet_self]

theorem dictGet_dictModify_ne {α β : Type} [DecidableEq α] {f : β → β} {a c : α}
    {d d' : List (α × β)} (h : dictModify f d a = some d') (hne : c ≠ a) :
    dictGet d' c = dictGet d c := by
  obtain ⟨v, hv, rfl⟩ := dictModify_eq_some.mp h
  exact dictGet_dictSet_ne a c (f v) hne d

theorem sum_map_dictSet {α β : Type} [DecidableEq α] (g : α × β → Int) {d : List (α × β)}
    {a : α} {v : β} (h : dictGet d a = some v) (b : β) :
    ((dictSet d a b).map g).sum = (d.map g).sum - g (a, v) + g (a, b) := by
  induction d with
  | nil => simp [dictGet] at h
  | cons kv rest ih =>
    obtain ⟨k, w⟩ := kv
    by_cases hk : a = k
    · subst hk
      simp [dictGet] at h
      subst h
      simp [dictSet]
      ring
    · simp only [dictGet, if_neg hk] at h
      simp [dictSet, if_neg (fun hh : a = k => hk hh), hk, ih h]
      ring

theorem sum_snd_dictModify {α : Type} [DecidableEq α] {f : Int → Int} (δ : Int)
    {d d' : List (α × Int)} {a : α} (hf : ∀ v, f v = v + δ)
    (h : dictModify f d a = some d') :
    (d'.map Prod.snd).sum = (d.map Prod.snd).sum + δ := by
  obtain ⟨v, hv, rfl⟩ := dictModify_eq_some.mp h
  rw [sum_map_dictSet Prod.snd hv]
  simp [hf v]
  ring

theorem dict2Modify_eq_some {α γ β : Type} [DecidableEq α] [DecidableEq γ]
    {d d' : List (α × List (γ × β))} {a : α} {c : γ} {f : β → β} :
    dict2Modify d a c f = some d' ↔
      ∃ hand v, dictGet d a = some hand ∧ dictGet hand c = some v ∧
        d' = dictSet d a (dictSet hand c (f v)) := by
  cases hg : dictGet d a with
  | none => simp [dict2Modify, hg]
  | some hh =>
    cases hm : dictModify f hh c with
    | none =>
      simp [dict2Modify, hg, hm]
      rintro v hv heq
      have h2 : dictModify f hh c = some (dictSet hh c (f v)) :=
        dictModify_eq_some.mpr ⟨v, hv, rfl⟩
      rw [hm] at h2
      exact Option.noConfusion h2
    | some h2 =>
      obtain ⟨v, hv, rfl⟩ := dictModify_eq_some.mp hm
      simp [dict2Modify, hg, hm, hv, eq_comm]

/-- Inversion of a successful `execute_trade` (one that emitted a
`transaction_processed` payload): recovers every guard and every dictionary
update the source performed. -/
theorem execute_trade_success {st : GameState} {b s : String} {su : Suit} {p : Int}
    {fx : TradeFx} (h : execute_trade st b s su p = PyResult.ok fx) (htx : fx.tx ≠ none) :
    ∃ hand v bc cash1 cash2 cards1 cards2 cnt1 cnt2,
      dictGet st.player2cards s = some hand ∧
      dictGet hand su = some v ∧ ¬ v ≤ 0 ∧
      dictGet st.player2cash b = some bc ∧ ¬ bc < p ∧
      dictModify (· + p) st.player2cash s = some cash1 ∧
      dictModify (· - p) cash1 b = some cash2 ∧
      dict2Modify st.player2cards s su (· - 1) = some cards1 ∧
      dict2Modify cards1 b su (· + 1) = some cards2 ∧
      dictModify (· - 1) st.player2card_count s = some cnt1 ∧
      dictModify (· + 1) cnt1 b = some cnt2 ∧
      fx.st.player2cash = cash2 ∧
      fx.st.player2cards = cards2 ∧
      fx.st.player2card_count = cnt2 ∧
      fx.st.orderbook.bids = bookSet st.orderbook.bids su {} ∧
      fx.st.orderbook.asks = bookSet st.orderbook.asks su {} ∧
      fx.st.goal_suit = st.goal_suit ∧
      fx.message = "Trade executed successfully" ∧
      fx.tx = some (transactionPayload s b su p) := by
  cases h1 : dictGet st.player2cards s with
  | none => simp [execute_trade, h1] at h
  | some hand =>
  cases h2 : dictGet hand su with
  | none => simp [execute_trade, h1, h2] at h
  | some v =>
  by_cases hv : v ≤ 0
  · simp [execute_trade, h1, h2, hv] at h
    rw [← h] at htx
    simp at htx
  · cases h3 : dictGet st.player2cash b with
    | none => simp [execute_trade, h1, h2, hv, h3] at h
    | some bc =>
    by_cases hbc : bc < p
    · simp [execute_trade, h1, h2, hv, h3, hbc] at h
      rw [← h] at htx
      simp at htx
    · cases h4 : dictModify (· + p) st.player2cash s with
      | none => simp [execute_trade, h1, h2, hv, h3, hbc, h4] at h
      | some cash1 =>
      cases h5 : dictModify (· - p) cash1 b with
      | none => simp [execute_trade, h1, h2, hv, h3, hbc, h4, h5] at h
      | some cash2 =>
      cases h6 : dict2Modify st.player2cards s su (· - 1) with
      | none => simp [execute_trade, h1, h2, hv, h3, hbc, h4, h5, h6] at h
      | some cards1 =>
      cases h7 : dict2Modify cards1 b su (· + 1) with
      | none => simp [execute_trade, h1, h2, hv, h3, hbc, h4, h5, h6, h7] at h
      | some cards2 =>
      cases h8 : dictModify (· - 1) st.player2card_count s with
      | none => simp [execute_trade, h1, h2, hv, h3, hbc, h4, h5, h6, h7, h8] at h
      | some cnt1 =>
      cases h9 : dictModify (· + 1) cnt1 b with
      | none => simp [execute_trade, h1, h2, hv, h3, hbc, h4, h5, h6, h7, h8, h9] at h
      | some cnt2 =>
      simp only [execute_trade, h1, h2, h3, h4, h5, h6, h7, h8, h9,
        if_neg hv, if_neg hbc, PyResult.ok.injEq] at h
      refine ⟨hand, v, bc, cash1, cash2, cards1, cards2, cnt1, cnt2,
        rfl, h2, hv, rfl, hbc, rfl, h5, rfl, h7, rfl, h9,
        ?_, ?_, ?_, ?_, ?_, ?_, ?_, ?_⟩ <;> rw [← h]

/-- Inversion of a successful `process_accept_order` (one that emitted a
`transaction_processed` payload): the acceptor and the resting owner differ,
and the source's six dictionary updates all succeeded, in the bid-branch order
(left disjunct) or the ask-branch order (right disjunct). -/
theorem process_accept_success {st : GameState} {order : Order} {fx : TradeFx}
    (h : process_accept_order st order = PyResult.ok fx) (htx : fx.tx ≠ none) :
    ∃ seller buyer price cash1 cash2 cards1 cards2 cnt1 cnt2,
      seller ≠ buyer ∧
      fx.st.player2cash = cash2 ∧
      fx.st.player2cards = cards2 ∧
      fx.st.player2card_count = cnt2 ∧
      fx.st.orderbook.bids = bookSet st.orderbook.bids order.suit {} ∧
      fx.st.orderbook.asks = bookSet st.orderbook.asks order.suit {} ∧
      fx.message = "Order accepted" ∧
      fx.tx = some (transactionPayload seller buyer order.suit price) ∧
      ((dictModify (· + price) st.player2cash seller = some cash1 ∧
        dictModify (· - price) cash1 buyer = some cash2 ∧
        dict2Modify st.player2cards seller order.suit (· - 1) = some cards1 ∧
        dict2Modify cards1 buyer order.suit (· + 1) = some cards2 ∧
        dictModify (· - 1) st.player2card_count seller = some cnt1 ∧
        dictModify (· + 1) cnt1 buyer = some cnt2) ∨
       (dictModify (· - price) st.player2cash buyer = some cash1 ∧
        dictModify (· + price) cash1 seller = some cash2 ∧
        dict2Modify st.player2cards buyer order.suit (· + 1) = some cards1 ∧
        dict2Modify cards1 seller order.suit (· - 1) = some cards2 ∧
        dictModify (· + 1) st.player2card_count buyer = some cnt1 ∧
        dictModify (· - 1) cnt1 seller = some cnt2)) := by
  cases hb : order.is_bid with
  | true =>
    by_cases hsb : order.player_id = (st.orderbook.bids order.suit).player_id
    · simp [process_accept_order, hb, hsb] at h
      rw [← h] at htx
      simp at htx
    · cases h1 : dictGet st.player2cards order.player_id with
      | none => simp [process_accept_order, hb, hsb, h1] at h
      | some hand =>
      cases h2 : dictGet hand order.suit with
      | none => simp [process_accept_order, hb, hsb, h1, h2] at h
      | some v =>
      by_cases hv : v ≤ 0
      · simp [process_accept_order, hb, hsb, h1, h2, hv] at h
        rw [← h] at htx
        simp at htx
      · cases h3 : dictGet st.player2cash (st.orderbook.bids order.suit).player_id with
        | none => simp [process_accept_order, hb, hsb, h1, h2, hv, h3] at h
        | some bc =>
        by_cases hbc : bc < (st.orderbook.bids order.suit).price
        · simp [process_accept_order, hb, hsb, h1, h2, hv, h3, hbc] at h
          rw [← h] at htx
          simp at htx
        · cases h4 : dictModify (· + (st.orderbook.bids order.suit).price) st.player2cash
              order.player_id with
          | none => simp [process_accept_order, hb, hsb, h1, h2, hv, h3, hbc, h4] at h
          | some cash1 =>
          cases h5 : dictModify (· - (st.orderbook.bids order.suit).price) cash1
              (st.orderbook.bids order.suit).player_id with
          | none => simp [process_accept_order, hb, hsb, h1, h2, hv, h3, hbc, h4, h5] at h
          | some cash2 =>
          cases h6 : dict2Modify st.player2cards order.player_id order.suit (· - 1) with
          | none => simp [process_accept_order, hb, hsb, h1, h2, hv, h3, hbc, h4, h5, h6] at h
          | some cards1 =>
          cases h7 : dict2Modify cards1 (st.orderbook.bids order.suit).player_id
              order.suit (· + 1) with
          | none =>
            simp [process_accept_order, hb, hsb, h1, h2, hv, h3, hbc, h4, h5, h6, h7] at h
          | some cards2 =>
          cases h8 : dictModify (· - 1) st.player2card_count order.player_id with
          | none =>
            simp [process_accept_order, hb, hsb, h1, h2, hv, h3, hbc, h4, h5, h6, h7, h8] at h
          | some cnt1 =>
          cases h9 : dictModify (· + 1) cnt1 (st.orderbook.bids order.suit).player_id with
          | none =>
            simp [process_accept_order, hb, hsb, h1, h2, hv, h3, hbc, h4, h5, h6, h7,
              h8, h9] at h
          | some cnt2 =>
          simp only [process_accept_order, hb, if_true, if_neg hsb, h1, h2, h3, h4, h5,
            h6, h7, h8, h9, if_neg hv, if_neg hbc, PyResult.ok.injEq] at h
          refine ⟨order.player_id, (st.orderbook.bids order.suit).player_id,
            (st.orderbook.bids order.suit).price, cash1, cash2, cards1, cards2, cnt1, cnt2,
            hsb, ?_, ?_, ?_, ?_, ?_, ?_, ?_,
            Or.inl ⟨?_, ?_, ?_, ?_, ?_, ?_⟩⟩ <;>
            first
            | rfl
            | assumption
            | rw [← h]
  | false =>
    by_cases hsb : order.player_id = (st.orderbook.asks order.suit).player_id
    · simp [process_accept_order, hb, hsb] at h
      rw [← h] at htx
      simp at htx
    · cases h1 : dictGet st.player2cards (st.orderbook.asks order.suit).player_id with
      | none => simp [process_accept_order, hb, hsb, h1] at h
      | some hand =>
      cases h2 : dictGet hand order.suit with
      | none => simp [process_accept_order, hb, hsb, h1, h2] at h
      | some v =>
      by_cases hv : v ≤ 0
      · simp [process_accept_order, hb, hsb, h1, h2, hv] at h
        rw [← h] at htx
        simp at htx
      · cases h3 : dictGet st.player2cash order.player_id with
        | none => simp [process_accept_order, hb, hsb, h1, h2, hv, h3] at h
        | some bc =>
        by_cases hbc : bc < (st.orderbook.asks order.suit).price
        · simp [process_accept_order, hb, hsb, h1, h2, hv, h3, hbc] at h
          rw [← h] at htx
          simp at htx
        · cases h4 : dictModify (· - (st.orderbook.asks order.suit).price) st.player2cash
              order.player_id with
          | none => simp [process_accept_order, hb, hsb, h1, h2, hv, h3, hbc, h4] at h
          | some cash1 =>
          cases h5 : dictModify (· + (st.orderbook.asks order.suit).price) cash1
              (st.orderbook.asks order.suit).player_id with
          | none => simp [process_accept_order, hb, hsb, h1, h2, hv, h3, hbc, h4, h5] at h
          | some cash2 =>
          cases h6 : dict2Modify st.player2cards order.player_id order.suit (· + 1) with
          | none => simp [process_accept_order, hb, hsb, h1, h2, hv, h3, hbc, h4, h5, h6] at h
          | some cards1 =>
          cases h7 : dict2Modify cards1 (st.orderbook.asks order.suit).player_id
              order.suit (· - 1) with
          | none =>
            simp [process_accept_order, hb, hsb, h1, h2, hv, h3, hbc, h4, h5, h6, h7] at h
          | some cards2 =>
          cases h8 : dictModify (· + 1) st.player2card_count order.player_id with
          | none =>
            simp [process_accept_order, hb, hsb, h1, h2, hv, h3, hbc, h4, h5, h6, h7, h8] at h
          | some cnt1 =>
          cases h9 : dictModify (· - 1) cnt1 (st.orderbook.asks order.suit).player_id with
          | none =>
            simp [process_accept_order, hb, hsb, h1, h2, hv, h3, hbc, h4, h5, h6, h7,
              h8, h9] at h
          | some cnt2 =>
          simp only [process_accept_order, hb, Bool.false_eq_true, if_false, if_neg hsb,
            h1, h2, h3, h4, h5, h6, h7, h8, h9, if_neg hv, if_neg hbc,
            PyResult.ok.injEq] at h
          refine ⟨(st.orderbook.asks order.suit).player_id, order.player_id,
            (st.orderbook.asks order.suit).price, cash1, cash2, cards1, cards2, cnt1, cnt2,
            fun hx => hsb hx.symm, ?_, ?_, ?_, ?_, ?_, ?_, ?_,
            Or.inr ⟨?_, ?_, ?_, ?_, ?_, ?_⟩⟩ <;>
            first
            | rfl
            | assumption
            | rw [← h]

/-! ### Claim theorems -/

/-- C5: whenever the accepting player's id equals the id of the owner of the
resting order being accepted, `process_accept_order` returns the state
unchanged (hands, cash, card counts and order book untouched), executes no
trade, and reports the "Order not accepted, cannot accept own bid/ask"
status to the acceptor. -/
theorem accept_self_trade_rejected (st : GameState) (order : Order)
    (hown : (if order.is_bid then st.orderbook.bids order.suit
             else st.orderbook.asks order.suit).player_id = order.player_id) :
    process_accept_order st order =
      PyResult.ok ⟨st, if order.is_bid then "Order not accepted, cannot accept own bid"
                else "Order not accepted, cannot accept own ask", none⟩ := by
  cases hb : order.is_bid with
  | true =>
    rw [hb] at hown
    simp only [if_true] at hown
    simp [process_accept_order, hb, hown]
  | false =>
    rw [hb] at hown
    simp only [Bool.false_eq_true, if_false] at hown
    simp [process_accept_order, hb, hown]

/-- Witness for C5: `A` accepting its own resting bid on hearts is rejected
with no state change. -/
theorem accept_self_trade_rejected_witness :
    process_accept_order stateBidA ⟨true, Suit.hearts, 99, "A"⟩ =
      PyResult.ok ⟨stateBidA, "Order not accepted, cannot accept own bid", none⟩ :=
  accept_self_trade_rejected stateBidA ⟨true, Suit.hearts, 99, "A"⟩ rfl

/-- C9: every `transaction_processed` payload the engine emits has exactly the
keys `from`, `to`, `suit`, `amount` — and therefore the broadcast handler
`on_transaction_processed`, which reads `data["message"]`, raises a `KeyError`
(result `none`) on every executed trade instead of broadcasting the data. -/
theorem transaction_processed_handler_keyerror :
    (∀ seller buyer su amount,
        on_transaction_processed (transactionPayload seller buyer su amount) = none) ∧
    (∀ st b s su p fx, execute_trade st b s su p = PyResult.ok fx →
        ∀ d, fx.tx = some d → d = transactionPayload s b su p ∧
          on_transaction_processed d = none) ∧
    (∀ st order fx, process_accept_order st order = PyResult.ok fx →
        ∀ d, fx.tx = some d → on_transaction_processed d = none) := by
  have hnone : ∀ seller buyer su amount,
      on_transaction_processed (transactionPayload seller buyer su amount) = none := by
    intro seller buyer su amount
    rfl
  refine ⟨hnone, ?_, ?_⟩
  · intro st b s su p fx h d hd
    obtain ⟨_, _, _, _, _, _, _, _, _, _, _, _, _, _, _, _, _, _, _, _, _, _, _, _, _,
      _, _, htx⟩ := execute_trade_success h (by rw [hd]; simp)
    rw [hd] at htx
    obtain rfl := Option.some.inj htx
    exact ⟨rfl, hnone s b su p⟩
  · intro st order fx h d hd
    obtain ⟨seller, buyer, price, _, _, _, _, _, _, _, _, _, _, _, _, _, htx, _⟩ :=
      process_accept_success h (by rw [hd]; simp)
    rw [hd] at htx
    obtain rfl := Option.some.inj htx
    exact hnone seller buyer order.suit price

/-- Witness for C9: the concrete trade in `stateBidA` (B sells A a heart at 3)
emits the from/to/suit/amount payload, and the handler yields no broadcast. -/
theorem transaction_processed_handler_keyerror_witness :
    transactionPayload "B" "A" Suit.hearts 3 = transactionPayload "B" "A" Suit.hearts 3 ∧
    on_transaction_processed (transactionPayload "B" "A" Suit.hearts 3) = none :=
  transaction_processed_handler_keyerror.2.1 stateBidA "A" "B" Suit.hearts 3
    ⟨crossFxB.st, "Trade executed successfully", crossFxB.tx⟩ rfl
    (transactionPayload "B" "A" Suit.hearts 3) rfl

/-- C3 counterexample: in `stateBidA` (resting bid 5 on hearts by "A"), the
lower bid (hearts, 3, "B") is a no-op but the status reported to "B" is
"Order added", not "not added". -/
theorem add_lower_bid_reports_added :
    process_add_order stateBidA ⟨true, Suit.hearts, 3, "B"⟩ =
      PyResult.ok ⟨stateBidA, "Order added", none⟩ ∧
    "Order added" ≠ "not added" :=
  ⟨rfl, by decide⟩

/-- C3 (amended): a bid that does not cross the resting ask and whose price is
not higher than the resting bid's price leaves the whole game state (order
book included) unchanged, but the outcome reported to the submitting player is
"Order added" — the source has no "not added" status. -/
theorem add_non_improving_bid_noop (st : GameState) (order : Order)
    (hbid : order.is_bid = true)
    (hnc : ¬((st.orderbook.asks order.suit).price ≠ -1 ∧
             order.price ≥ (st.orderbook.asks order.suit).price))
    (hle : order.price ≤ (st.orderbook.bids order.suit).price) :
    process_add_order st order = PyResult.ok ⟨st, "Order added", none⟩ := by
  simp only [process_add_order, hbid, if_true, if_neg hnc, if_neg (not_lt.mpr hle)]

/-- Witness for C3's amended theorem at the spec's own scenario (bid 3 against
resting bid 5). -/
theorem add_non_improving_bid_noop_witness :
    process_add_order stateBidA ⟨true, Suit.hearts, 3, "B"⟩ =
      PyResult.ok ⟨stateBidA, "Order added", none⟩ :=
  add_non_improving_bid_noop stateBidA ⟨true, Suit.hearts, 3, "B"⟩ rfl (by decide) (by decide)

/-- C1 counterexample: in `stateBidA` (resting bid of 5 on hearts owned by
"A"), the crossing ask (hearts, 3, "B") executes the trade at the aggressor's
price 3, not at the resting (maker) order's price 5. -/
theorem ask_cross_aggressor_price :
    process_add_order stateBidA ⟨false, Suit.hearts, 3, "B"⟩ = PyResult.ok crossFxB ∧
    crossFxB.tx = some (transactionPayload "B" "A" Suit.hearts 3) ∧
    (stateBidA.orderbook.bids Suit.hearts).price = 5 ∧
    (3 : Int) ≠ 5 :=
  ⟨rfl, rfl, rfl, by decide⟩

/-- C1 (amended): the executed trade's price is the resting ask's (maker)
price when a bid crosses, but it is the aggressor's own price when an ask
crosses a resting bid (the two coincide only when the ask price equals the
resting bid's price). -/
theorem trade_price_convention (st : GameState) (order : Order) {fx : TradeFx}
    (h : process_add_order st order = PyResult.ok fx)
    {d : List (String × PyVal)} (hd : fx.tx = some d) :
    (order.is_bid = true →
      d = transactionPayload (st.orderbook.asks order.suit).player_id order.player_id
            order.suit (st.orderbook.asks order.suit).price) ∧
    (order.is_bid = false →
      d = transactionPayload order.player_id (st.orderbook.bids order.suit).player_id
            order.suit order.price) := by
  cases hb : order.is_bid with
  | true =>
    refine ⟨fun _ => ?_, fun hc => by simp [hb] at hc⟩
    by_cases hcr : (st.orderbook.asks order.suit).price ≠ -1 ∧
        order.price ≥ (st.orderbook.asks order.suit).price
    · cases he : execute_trade st order.player_id (st.orderbook.asks order.suit).player_id
          order.suit (st.orderbook.asks order.suit).price with
      | exn st2 => simp [process_add_order, hb, hcr, he] at h
      | ok gfx =>
        simp only [process_add_order, hb, if_true, if_pos hcr, he,
          PyResult.ok.injEq] at h
        obtain rfl := h
        have hd2 : gfx.tx = some d := hd
        have hne : gfx.tx ≠ none := by rw [hd2]; simp
        obtain ⟨_, _, _, _, _, _, _, _, _, _, _, _, _, _, _, _, _, _, _, _, _, _, _,
          _, _, _, _, htx⟩ := execute_trade_success he hne
        rw [htx] at hd2
        obtain rfl := Option.some.inj hd2
        rfl
    · by_cases himp : (st.orderbook.bids order.suit).price < order.price
      · simp only [process_add_order, hb, if_true, if_neg hcr, if_pos himp,
          PyResult.ok.injEq] at h
        rw [← h] at hd
        simp at hd
      · simp only [process_add_order, hb, if_true, if_neg hcr, if_neg himp,
          PyResult.ok.injEq] at h
        rw [← h] at hd
        simp at hd
  | false =>
    refine ⟨fun hc => by simp [hb] at hc, fun _ => ?_⟩
    by_cases hcr : (st.orderbook.bids order.suit).price ≠ -1 ∧
        order.price ≤ (st.orderbook.bids order.suit).price
    · cases he : execute_trade st (st.orderbook.bids order.suit).player_id order.player_id
          order.suit order.price with
      | exn st2 => simp [process_add_order, hb, hcr, he] at h
      | ok gfx =>
        simp only [process_add_order, hb, Bool.false_eq_true, if_false, if_pos hcr, he,
          PyResult.ok.injEq] at h
        obtain rfl := h
        have hd2 : gfx.tx = some d := hd
        have hne : gfx.tx ≠ none := by rw [hd2]; simp
        obtain ⟨_, _, _, _, _, _, _, _, _, _, _, _, _, _, _, _, _, _, _, _, _, _, _,
          _, _, _, _, htx⟩ := execute_trade_success he hne
        rw [htx] at hd2
        obtain rfl := Option.some.inj hd2
        rfl
    · by_cases himp : (st.orderbook.asks order.suit).price = -1 ∨
          order.price < (st.orderbook.asks order.suit).price
      · simp only [process_add_order, hb, Bool.false_eq_true, if_false, if_neg hcr,
          if_pos himp, PyResult.ok.injEq] at h
        rw [← h] at hd
        simp at hd
      · simp only [process_add_order, hb, Bool.false_eq_true, if_false, if_neg hcr,
          if_neg himp, PyResult.ok.injEq] at h
        rw [← h] at hd
        simp at hd

/-- Witness for C1's amended theorem at the counterexample input: the ask
(hearts, 3, "B") against the resting bid (5, "A") settles at the aggressor's
price 3. -/
theorem trade_price_convention_witness :
    ((⟨false, Suit.hearts, 3, "B"⟩ : Order).is_bid = true →
      transactionPayload "B" "A" Suit.hearts 3 =
        transactionPayload (stateBidA.orderbook.asks Suit.hearts).player_id "B"
          Suit.hearts (stateBidA.orderbook.asks Suit.hearts).price) ∧
    ((⟨false, Suit.hearts, 3, "B"⟩ : Order).is_bid = false →
      transactionPayload "B" "A" Suit.hearts 3 =
        transactionPayload "B" (stateBidA.orderbook.bids Suit.hearts).player_id
          Suit.hearts 3) :=
  trade_price_convention stateBidA ⟨false, Suit.hearts, 3, "B"⟩ rfl rfl

/-- C6: for every goal suit and every outcome of the three random draws, the
four suit counts of `get_suit_distribution` are a permutation of
{8, 10, 10, 12} summing to 40, the goal suit gets 8 or 10, its same-colour
partner gets 12, and all four suits are assigned (so the remaining two values
go to the two opposite-colour suits). -/
theorem suit_distribution_valid :
    ∀ (g : Suit) (pickEight swapSuits swapCounts : Bool),
      ((get_suit_distribution g pickEight swapSuits swapCounts).map Prod.snd).Perm
        [8, 10, 10, 12] ∧
      ((get_suit_distribution g pickEight swapSuits swapCounts).map Prod.snd).sum = 40 ∧
      (dictGet (get_suit_distribution g pickEight swapSuits swapCounts) g = some 8 ∨
       dictGet (get_suit_distribution g pickEight swapSuits swapCounts) g = some 10) ∧
      dictGet (get_suit_distribution g pickEight swapSuits swapCounts)
        (same_color_other_suit g) = some 12 ∧
      ((get_suit_distribution g pickEight swapSuits swapCounts).map Prod.fst).Perm
        Constants.suits := by
  intro g b1 b2 b3
  cases g <;> cases b1 <;> cases b2 <;> cases b3 <;> exact (by decide)

theorem dictGet_map_tag {α β : Type} [DecidableEq α] (f : α → β) (a : α) :
    ∀ l : List α, dictGet (l.map (fun x => (x, f x))) a = if a ∈ l then some (f a) else none
  | [] => by simp [dictGet]
  | b :: rest => by
    by_cases h : a = b
    · subst h
      simp [dictGet]
    · simp [dictGet, h, dictGet_map_tag f a rest]

@[simp]
theorem sliceStep_nil {α : Type} (n : Nat) : sliceStep n ([] : List α) = [] := by
  rw [sliceStep]

@[simp]
theorem sliceStep_cons {α : Type} (n : Nat) (a : α) (l : List α) :
    sliceStep n (a :: l) = a :: sliceStep n (l.drop (n - 1)) := by
  rw [sliceStep]

/-- C10: a hand produced by `distribute_cards` has a key for a suit exactly
when at least one card of that suit was dealt to that player, so the
`player2cards[seller_id][suit]` lookup of `execute_trade` is defined only
under that precondition; in the reachable dealt state `stateDealt` (deck
`[hearts, spades]` dealt to `A`, `B`) the lookup for seller `B` and suit
hearts is undefined and `execute_trade` raises a `KeyError` before any
mutation (result `PyResult.exn` carrying the unchanged state). -/
theorem hand_key_iff_dealt :
    (∀ (cards : List Suit) (s : Suit),
        (dictGet (handOf cards) s).isSome ↔ 0 < cards.count s) ∧
    stateDealt.player2cards = distribute_cards [Suit.hearts, Suit.spades] ["A", "B"] ∧
    dictGet stateDealt.player2cards "B" = some [(Suit.spades, 1)] ∧
    dictGet [(Suit.spades, (1 : Int))] Suit.hearts = none ∧
    execute_trade stateDealt "A" "B" Suit.hearts 1 = PyResult.exn stateDealt := by
  have h3 : dictGet stateDealt.player2cards "B" = some [(Suit.spades, 1)] := by
    simp [stateDealt, distribute_cards, handOf, dictGet, List.enum, List.enumFrom]
  have h4 : dictGet [(Suit.spades, (1 : Int))] Suit.hearts = none := by decide
  refine ⟨?_, rfl, h3, h4, by simp [execute_trade, h3, h4]⟩
  intro cards s
  rw [handOf, dictGet_map_tag (fun x => (cards.count x : Int)) s cards.dedup]
  by_cases h : s ∈ cards.dedup
  · simp [h, List.count_pos_iff, List.mem_dedup.mp h]
  · simp [h]
    intro hc
    exact h (List.mem_dedup.mpr hc)

theorem bookSet_self (f : Suit → SampleRecord) (s : Suit) (r : SampleRecord) :
    bookSet f s r s = r := by
  simp [bookSet]

theorem dictGet_dictSet_isSome {α β : Type} [DecidableEq α] {d : List (α × β)} {a a2 : α}
    {v : β} (h : dictGet d a = some v) (b : β) :
    ∃ w, dictGet (dictSet d a2 b) a = some w := by
  by_cases he : a = a2
  · subst he
    exact ⟨b, dictGet_dictSet_self a b d⟩
  · exact ⟨v, by rw [dictGet_dictSet_ne a2 a b he d]; exact h⟩

theorem dictModify_isSome {α β : Type} [DecidableEq α] {d : List (α × β)} {a : α} {v : β}
    (h : dictGet d a = some v) (f : β → β) :
    dictModify f d a = some (dictSet d a (f v)) :=
  dictModify_eq_some.mpr ⟨v, h, rfl⟩

theorem dict2Modify_some {α γ β : Type} [DecidableEq α] [DecidableEq γ]
    {d : List (α × List (γ × β))} {a : α} {c : γ} {hand : List (γ × β)} {v : β}
    (ha : dictGet d a = some hand) (hc : dictGet hand c = some v) (f : β → β) :
    dict2Modify d a c f = some (dictSet d a (dictSet hand c (f v))) :=
  dict2Modify_eq_some.mpr ⟨hand, v, ha, hc, rfl⟩

theorem dict2Modify_preserves {α γ β : Type} [DecidableEq α] [DecidableEq γ]
    {d d2 : List (α × List (γ × β))} {a a2 : α} {c : γ} {f : β → β}
    {hand : List (γ × β)} {v : β}
    (hm : dict2Modify d a c f = some d2)
    (ha : dictGet d a2 = some hand) (hc : dictGet hand c = some v) :
    ∃ hand2 v2, dictGet d2 a2 = some hand2 ∧ dictGet hand2 c = some v2 := by
  obtain ⟨h0, u, h0a, h0c, rfl⟩ := dict2Modify_eq_some.mp hm
  by_cases he : a2 = a
  · subst he
    rw [ha] at h0a
    obtain rfl := Option.some.inj h0a
    exact ⟨dictSet hand c (f u), f u,
      dictGet_dictSet_self a2 (dictSet hand c (f u)) d,
      dictGet_dictSet_self c (f u) hand⟩
  · refine ⟨hand, v, ?_, hc⟩
    rw [dictGet_dictSet_ne a a2 (dictSet h0 c (f u)) he d]
    exact ha

/-- C2 counterexample: in `stateAskBEmpty` the resting ask on hearts has the
non-sentinel price 5 ≤ the bid price 6, yet no trade executes (the seller
holds zero hearts) and the resting ask is left in the book rather than being
cleared to the sentinel; the bidder is even told "Order matched and
executed". -/
theorem bid_cross_guard_counterexample :
    (stateAskBEmpty.orderbook.asks Suit.hearts).price = 5 ∧
    process_add_order stateAskBEmpty ⟨true, Suit.hearts, 6, "A"⟩ =
      PyResult.ok ⟨stateAskBEmpty, "Order matched and executed", none⟩ ∧
    ((5 : Int) = -1 → False) :=
  ⟨rfl, rfl, by decide⟩

/-- C2 (amended): a bid crossing a non-sentinel resting ask at price ≤ the bid
price executes a trade between the bidder (buyer) and the resting ask's owner
(seller) at the resting ask's price and clears both book sides for that suit
to the empty sentinel — provided the seller's recorded count of the suit is
positive, the buyer's cash covers the price, and the hand/cash/count entries
touched by the settlement are present (otherwise the source either skips the
trade without clearing the book, or raises a `KeyError`). -/
theorem bid_cross_executes (st : GameState) (order : Order)
    (hbid : order.is_bid = true)
    (hp : (st.orderbook.asks order.suit).price ≠ -1)
    (hge : order.price ≥ (st.orderbook.asks order.suit).price)
    {hs : List (Suit × Int)}
    (hhs : dictGet st.player2cards (st.orderbook.asks order.suit).player_id = some hs)
    {v : Int} (hv : dictGet hs order.suit = some v) (hvpos : 0 < v)
    {bc : Int} (hbc : dictGet st.player2cash order.player_id = some bc)
    (hcash : (st.orderbook.asks order.suit).price ≤ bc)
    {hb2 : List (Suit × Int)} (hhb : dictGet st.player2cards order.player_id = some hb2)
    {w : Int} (hw : dictGet hb2 order.suit = some w)
    {sc : Int}
    (hsc : dictGet st.player2cash (st.orderbook.asks order.suit).player_id = some sc)
    {n1 : Int}
    (hn1 : dictGet st.player2card_count (st.orderbook.asks order.suit).player_id = some n1)
    {n2 : Int} (hn2 : dictGet st.player2card_count order.player_id = some n2) :
    ∃ fx, process_add_order st order = PyResult.ok fx ∧
      fx.message = "Order matched and executed" ∧
      fx.tx = some (transactionPayload (st.orderbook.asks order.suit).player_id
        order.player_id order.suit (st.orderbook.asks order.suit).price) ∧
      fx.st.orderbook.bids order.suit = {} ∧
      fx.st.orderbook.asks order.suit = {} := by
  have hv0 : ¬ v ≤ 0 := by omega
  have hbc0 : ¬ bc < (st.orderbook.asks order.suit).price := not_lt.mpr hcash
  obtain ⟨cash1, hm1⟩ :
      ∃ x, dictModify (· + (st.orderbook.asks order.suit).price) st.player2cash
        (st.orderbook.asks order.suit).player_id = some x :=
    ⟨_, dictModify_isSome hsc _⟩
  obtain ⟨bc1, hbc1⟩ : ∃ x, dictGet cash1 order.player_id = some x := by
    obtain ⟨u, hu, rfl⟩ := dictModify_eq_some.mp hm1
    exact dictGet_dictSet_isSome hbc _
  obtain ⟨cash2, hm2⟩ :
      ∃ x, dictModify (· - (st.orderbook.asks order.suit).price) cash1
        order.player_id = some x :=
    ⟨_, dictModify_isSome hbc1 _⟩
  obtain ⟨cards1, hm3⟩ :
      ∃ x, dict2Modify st.player2cards (st.orderbook.asks order.suit).player_id
        order.suit (· - 1) = some x :=
    ⟨_, dict2Modify_some hhs hv _⟩
  obtain ⟨hb3, w3, hhb3, hw3⟩ :
      ∃ hand2 v2, dictGet cards1 order.player_id = some hand2 ∧
        dictGet hand2 order.suit = some v2 :=
    dict2Modify_preserves hm3 hhb hw
  obtain ⟨cards2, hm4⟩ :
      ∃ x, dict2Modify cards1 order.player_id order.suit (· + 1) = some x :=
    ⟨_, dict2Modify_some hhb3 hw3 _⟩
  obtain ⟨cnt1, hm5⟩ :
      ∃ x, dictModify (· - 1) st.player2card_count
        (st.orderbook.asks order.suit).player_id = some x :=
    ⟨_, dictModify_isSome hn1 _⟩
  obtain ⟨n2b, hn2b⟩ : ∃ x, dictGet cnt1 order.player_id = some x := by
    obtain ⟨u, hu, rfl⟩ := dictModify_eq_some.mp hm5
    exact dictGet_dictSet_isSome hn2 _
  obtain ⟨cnt2, hm6⟩ : ∃ x, dictModify (· + 1) cnt1 order.player_id = some x :=
    ⟨_, dictModify_isSome hn2b _⟩
  refine ⟨⟨{ st with
              player2cash := cash2,
              player2cards := cards2,
              player2card_count := cnt2,
              orderbook := ⟨bookSet st.orderbook.bids order.suit {},
                            bookSet st.orderbook.asks order.suit {}⟩ },
           "Order matched and executed",
           some (transactionPayload (st.orderbook.asks order.suit).player_id
             order.player_id order.suit (st.orderbook.asks order.suit).price)⟩,
         ?_, rfl, rfl, ?_, ?_⟩
  · have hcr : (st.orderbook.asks order.suit).price ≠ -1 ∧
        order.price ≥ (st.orderbook.asks order.suit).price := ⟨hp, hge⟩
    simp only [process_add_order, hbid, if_true, if_pos hcr]
    simp only [execute_trade, hhs, hv, hbc, hm1, hm2, hm3, hm4, hm5, hm6,
      if_neg hv0, if_neg hbc0]
  · exact bookSet_self st.orderbook.bids order.suit {}
  · exact bookSet_self st.orderbook.asks order.suit {}

/-- Witness for C2's amended theorem: in `stateAskB`, A's bid (hearts, 6)
crosses B's resting ask (hearts, 5); the trade settles at 5 and the hearts
book is cleared. -/
theorem bid_cross_executes_witness :
    ∃ fx, process_add_order stateAskB ⟨true, Suit.hearts, 6, "A"⟩ = PyResult.ok fx ∧
      fx.message = "Order matched and executed" ∧
      fx.tx = some (transactionPayload (stateAskB.orderbook.asks Suit.hearts).player_id
        "A" Suit.hearts (stateAskB.orderbook.asks Suit.hearts).price) ∧
      fx.st.orderbook.bids Suit.hearts = {} ∧
      fx.st.orderbook.asks Suit.hearts = {} :=
  bid_cross_executes stateAskB ⟨true, Suit.hearts, 6, "A"⟩ rfl (by decide) (by decide)
    rfl rfl (by decide) rfl (by decide) rfl rfl rfl rfl rfl

theorem suitSum_dict2Modify {α γ : Type} [DecidableEq α] [DecidableEq γ]
    {d d2 : List (α × List (γ × Int))} {a : α} {c : γ} {f : Int → Int} (δ : Int)
    (hf : ∀ x, f x = x + δ) (hm : dict2Modify d a c f = some d2) (su : γ) :
    (d2.map (fun pc => (dictGet pc.2 su).getD 0)).sum
      = (d.map (fun pc => (dictGet pc.2 su).getD 0)).sum + (if su = c then δ else 0) := by
  obtain ⟨hand, v, hg, hv, rfl⟩ := dict2Modify_eq_some.mp hm
  rw [sum_map_dictSet (fun pc => (dictGet pc.2 su).getD 0) hg]
  by_cases hc : su = c
  · subst hc
    rw [if_pos rfl]
    simp only [dictGet_dictSet_self, hv, Option.getD_some, hf v]
    ring
  · rw [if_neg hc, dictGet_dictSet_ne c su (f v) hc hand]
    ring

/-- Conservation for a successful `execute_trade`: total cash and every
per-suit card total are unchanged. -/
theorem execute_trade_conserves {st : GameState} {b s : String} {su : Suit} {p : Int}
    {fx : TradeFx} (h : execute_trade st b s su p = PyResult.ok fx) (htx : fx.tx ≠ none) :
    cashTotal fx.st = cashTotal st ∧ ∀ su2, suitTotal fx.st su2 = suitTotal st su2 := by
  obtain ⟨hand, v, bc, cash1, cash2, cards1, cards2, cnt1, cnt2, h1, h2, hv, h3, hbc,
    h4, h5, h6, h7, h8, h9, hstcash, hstcards, hstcnt, _, _, _, _, _⟩ :=
    execute_trade_success h htx
  constructor
  · rw [cashTotal, cashTotal, hstcash]
    have e1 := sum_snd_dictModify p (fun _ => rfl) h4
    have e2 := sum_snd_dictModify (-p) (fun x => by ring) h5
    omega
  · intro su2
    rw [suitTotal, suitTotal, hstcards]
    have e1 := suitSum_dict2Modify (-1) (fun x => by ring) h6 su2
    have e2 := suitSum_dict2Modify 1 (fun x => by ring) h7 su2
    split_ifs at e1 e2 <;> omega

/-- Any `process_add_order` outcome that carries a `transaction_processed`
payload came from a successful `execute_trade` on the same state producing the
same post-state and payload. -/
theorem process_add_tx_execute {st : GameState} {order : Order} {fx : TradeFx}
    (h : process_add_order st order = PyResult.ok fx) (htx : fx.tx ≠ none) :
    ∃ b s p gfx, execute_trade st b s order.suit p = PyResult.ok gfx ∧
      gfx.st = fx.st ∧ gfx.tx = fx.tx := by
  cases hb : order.is_bid with
  | true =>
    by_cases hcr : (st.orderbook.asks order.suit).price ≠ -1 ∧
        order.price ≥ (st.orderbook.asks order.suit).price
    · cases he : execute_trade st order.player_id (st.orderbook.asks order.suit).player_id
          order.suit (st.orderbook.asks order.suit).price with
      | exn st2 => simp [process_add_order, hb, hcr, he] at h
      | ok gfx =>
        simp only [process_add_order, hb, if_true, if_pos hcr, he,
          PyResult.ok.injEq] at h
        obtain rfl := h
        exact ⟨_, _, _, gfx, he, rfl, rfl⟩
    · by_cases himp : (st.orderbook.bids order.suit).price < order.price
      · simp only [process_add_order, hb, if_true, if_neg hcr, if_pos himp,
          PyResult.ok.injEq] at h
        rw [← h] at htx
        simp at htx
      · simp only [process_add_order, hb, if_true, if_neg hcr, if_neg himp,
          PyResult.ok.injEq] at h
        rw [← h] at htx
        simp at htx
  | false =>
    by_cases hcr : (st.orderbook.bids order.suit).price ≠ -1 ∧
        order.price ≤ (st.orderbook.bids order.suit).price
    · cases he : execute_trade st (st.orderbook.bids order.suit).player_id order.player_id
          order.suit order.price with
      | exn st2 => simp [process_add_order, hb, hcr, he] at h
      | ok gfx =>
        simp only [process_add_order, hb, Bool.false_eq_true, if_false, if_pos hcr, he,
          PyResult.ok.injEq] at h
        obtain rfl := h
        exact ⟨_, _, _, gfx, he, rfl, rfl⟩
    · by_cases himp : (st.orderbook.asks order.suit).price = -1 ∨
          order.price < (st.orderbook.asks order.suit).price
      · simp only [process_add_order, hb, Bool.false_eq_true, if_false, if_neg hcr,
          if_pos himp, PyResult.ok.injEq] at h
        rw [← h] at htx
        simp at htx
      · simp only [process_add_order, hb, Bool.false_eq_true, if_false, if_neg hcr,
          if_neg himp, PyResult.ok.injEq] at h
        rw [← h] at htx
        simp at htx

/-- Conservation for a successful `process_accept_order` (either branch
order of updates): total cash and every per-suit card total are unchanged. -/
theorem process_accept_conserves {st : GameState} {order : Order} {fx : TradeFx}
    (h : process_accept_order st order = PyResult.ok fx) (htx : fx.tx ≠ none) :
    cashTotal fx.st = cashTotal st ∧ ∀ su2, suitTotal fx.st su2 = suitTotal st su2 := by
  obtain ⟨seller, buyer, price, cash1, cash2, cards1, cards2, cnt1, cnt2, hne,
    hcash, hcards, hcnt, _, _, _, _, hpipe⟩ := process_accept_success h htx
  constructor
  · rw [cashTotal, cashTotal, hcash]
    rcases hpipe with ⟨p1, p2, _, _, _, _⟩ | ⟨p1, p2, _, _, _, _⟩
    · have e1 := sum_snd_dictModify price (fun _ => rfl) p1
      have e2 := sum_snd_dictModify (-price) (fun x => by ring) p2
      omega
    · have e1 := sum_snd_dictModify (-price) (fun x => by ring) p1
      have e2 := sum_snd_dictModify price (fun _ => rfl) p2
      omega
  · intro su2
    rw [suitTotal, suitTotal, hcards]
    rcases hpipe with ⟨_, _, p3, p4, _, _⟩ | ⟨_, _, p3, p4, _, _⟩
    · have e1 := suitSum_dict2Modify (-1) (fun x => by ring) p3 su2
      have e2 := suitSum_dict2Modify 1 (fun x => by ring) p4 su2
      split_ifs at e1 e2 <;> omega
    · have e1 := suitSum_dict2Modify 1 (fun x => by ring) p3 su2
      have e2 := suitSum_dict2Modify (-1) (fun x => by ring) p4 su2
      split_ifs at e1 e2 <;> omega

/-- Point deltas of a successful `execute_trade` with distinct buyer and
seller: seller cash +price, buyer cash -price, seller suit count -1, buyer
suit count +1, everything else untouched. -/
theorem execute_trade_deltas {st : GameState} {b s : String} {su : Suit} {p : Int}
    {fx : TradeFx} (h : execute_trade st b s su p = PyResult.ok fx) (htx : fx.tx ≠ none)
    (hbs : b ≠ s) :
    (∃ cs, dictGet st.player2cash s = some cs ∧
      dictGet fx.st.player2cash s = some (cs + p)) ∧
    (∃ cb, dictGet st.player2cash b = some cb ∧
      dictGet fx.st.player2cash b = some (cb - p)) ∧
    (∀ q, q ≠ s → q ≠ b → dictGet fx.st.player2cash q = dictGet st.player2cash q) ∧
    (∃ hs0 hs2, dictGet st.player2cards s = some hs0 ∧
      dictGet fx.st.player2cards s = some hs2 ∧
      dictGet hs2 su = (dictGet hs0 su).map (· - 1) ∧
      ∀ su2, su2 ≠ su → dictGet hs2 su2 = dictGet hs0 su2) ∧
    (∃ hb0 hb2, dictGet st.player2cards b = some hb0 ∧
      dictGet fx.st.player2cards b = some hb2 ∧
      dictGet hb2 su = (dictGet hb0 su).map (· + 1) ∧
      ∀ su2, su2 ≠ su → dictGet hb2 su2 = dictGet hb0 su2) ∧
    (∀ q, q ≠ s → q ≠ b → dictGet fx.st.player2cards q = dictGet st.player2cards q) := by
  have hsb : s ≠ b := fun hx => hbs hx.symm
  obtain ⟨hand, v, bc, cash1, cash2, cards1, cards2, cnt1, cnt2, h1, h2, hv, h3, hbc,
    h4, h5, h6, h7, h8, h9, hstcash, hstcards, hstcnt, _, _, _, _, _⟩ :=
    execute_trade_success h htx
  obtain ⟨cs, hcs, rfl⟩ := dictModify_eq_some.mp h4
  obtain ⟨cb1, hcb1, rfl⟩ := dictModify_eq_some.mp h5
  have hc1b : dictGet (dictSet st.player2cash s (cs + p)) b = dictGet st.player2cash b :=
    dictGet_dictSet_ne s b (cs + p) hbs st.player2cash
  rw [hc1b, h3] at hcb1
  obtain rfl := Option.some.inj hcb1
  obtain ⟨hand1, v1, hg1, hv1, rfl⟩ := dict2Modify_eq_some.mp h6
  rw [h1] at hg1
  obtain rfl := Option.some.inj hg1
  rw [h2] at hv1
  obtain rfl := Option.some.inj hv1
  obtain ⟨hb0, w, hg2, hw2, rfl⟩ := dict2Modify_eq_some.mp h7
  have hcards1b :
      dictGet (dictSet st.player2cards s (dictSet hand su ((· - 1) v))) b =
        dictGet st.player2cards b :=
    dictGet_dictSet_ne s b (dictSet hand su ((· - 1) v)) hbs st.player2cards
  rw [hcards1b] at hg2
  refine ⟨⟨cs, hcs, ?_⟩, ⟨bc, h3, ?_⟩, ?_, ?_, ?_, ?_⟩
  · rw [hstcash, dictGet_dictSet_ne b s _ hsb, dictGet_dictSet_self]
  · rw [hstcash, dictGet_dictSet_self]
  · intro q hqs hqb
    rw [hstcash, dictGet_dictSet_ne b q _ hqb, dictGet_dictSet_ne s q _ hqs]
  · refine ⟨hand, dictSet hand su ((· - 1) v), h1, ?_, ?_, ?_⟩
    · rw [hstcards, dictGet_dictSet_ne b s _ hsb, dictGet_dictSet_self]
    · rw [dictGet_dictSet_self, h2]
      rfl
    · intro su2 hsu2
      exact dictGet_dictSet_ne su su2 _ hsu2 hand
  · refine ⟨hb0, dictSet hb0 su ((· + 1) w), hg2, ?_, ?_, ?_⟩
    · rw [hstcards, dictGet_dictSet_self]
    · rw [dictGet_dictSet_self, hw2]
      rfl
    · intro su2 hsu2
      exact dictGet_dictSet_ne su su2 _ hsu2 hb0
  · intro q hqs hqb
    rw [hstcards, dictGet_dictSet_ne b q _ hqb, dictGet_dictSet_ne s q _ hqs]

/-- C4 (amended): every settlement that runs to completion — a crossing
`process_add_order` or a successful `process_accept_order` that emitted its
`transaction_processed` payload — conserves total cash and every per-suit
card total; and a completed `execute_trade` with distinct buyer and seller
changes the state exactly by seller cash +price, buyer cash -price, seller
suit count -1, buyer suit count +1, leaving every other player, suit and cash
entry unchanged.  A settlement interrupted by the missing-suit-key `KeyError`
instead leaves its partial mutations behind (see
the partial-settlement counterexample on `statePartial`). -/
theorem settlement_conservation :
    (∀ st (order : Order) fx, process_add_order st order = PyResult.ok fx → fx.tx ≠ none →
      cashTotal fx.st = cashTotal st ∧ ∀ su, suitTotal fx.st su = suitTotal st su) ∧
    (∀ st (order : Order) fx, process_accept_order st order = PyResult.ok fx → fx.tx ≠ none →
      cashTotal fx.st = cashTotal st ∧ ∀ su, suitTotal fx.st su = suitTotal st su) ∧
    (∀ st b s su p fx, execute_trade st b s su p = PyResult.ok fx → fx.tx ≠ none → b ≠ s →
      (∃ cs, dictGet st.player2cash s = some cs ∧
        dictGet fx.st.player2cash s = some (cs + p)) ∧
      (∃ cb, dictGet st.player2cash b = some cb ∧
        dictGet fx.st.player2cash b = some (cb - p)) ∧
      (∀ q, q ≠ s → q ≠ b → dictGet fx.st.player2cash q = dictGet st.player2cash q) ∧
      (∃ hs0 hs2, dictGet st.player2cards s = some hs0 ∧
        dictGet fx.st.player2cards s = some hs2 ∧
        dictGet hs2 su = (dictGet hs0 su).map (· - 1) ∧
        ∀ su2, su2 ≠ su → dictGet hs2 su2 = dictGet hs0 su2) ∧
      (∃ hb0 hb2, dictGet st.player2cards b = some hb0 ∧
        dictGet fx.st.player2cards b = some hb2 ∧
        dictGet hb2 su = (dictGet hb0 su).map (· + 1) ∧
        ∀ su2, su2 ≠ su → dictGet hb2 su2 = dictGet hb0 su2) ∧
      (∀ q, q ≠ s → q ≠ b → dictGet fx.st.player2cards q = dictGet st.player2cards q)) := by
  refine ⟨?_, ?_, ?_⟩
  · intro st order fx h htx
    obtain ⟨b, s, p, gfx, he, hst, htx2⟩ := process_add_tx_execute h htx
    have hcons := execute_trade_conserves he (by rw [htx2]; exact htx)
    rw [← hst]
    exact hcons
  · intro st order fx h htx
    exact process_accept_conserves h htx
  · intro st b s su p fx h htx hbs
    exact execute_trade_deltas h htx hbs

/-- Witness for C4 at the concrete cross in `stateBidA` (B's ask at 3 against
A's resting bid): totals are conserved. -/
theorem settlement_conservation_witness :
    cashTotal crossFxB.st = cashTotal stateBidA ∧
    ∀ su, suitTotal crossFxB.st su = suitTotal stateBidA su :=
  settlement_conservation.1 stateBidA ⟨false, Suit.hearts, 3, "B"⟩ crossFxB rfl
    (by simp [crossFxB])

/-- Round-robin partition: summing any per-element tally `f` over the `n`
slices `l[i::n]`, `i < n`, gives the tally over the whole deck. -/
theorem sum_map_slices {α : Type} (f : α → Nat) {n : Nat} (hn : 0 < n) :
    ∀ l : List α,
      ((List.range n).map (fun i => ((sliceStep n (l.drop i)).map f).sum)).sum
        = (l.map f).sum := by
  obtain ⟨k, rfl⟩ : ∃ k, n = k + 1 := ⟨n - 1, by omega⟩
  intro l
  induction l with
  | nil => simp
  | cons a t ih =>
    rw [List.range_succ_eq_map, List.map_cons, List.sum_cons, List.map_map]
    have hcomp :
        (List.range k).map
            ((fun i => ((sliceStep (k + 1) ((a :: t).drop i)).map f).sum) ∘ (· + 1))
          = (List.range k).map (fun i => ((sliceStep (k + 1) (t.drop i)).map f).sum) :=
      List.map_congr_left (fun i _ => rfl)
    rw [hcomp]
    have hhead : ((sliceStep (k + 1) ((a :: t).drop 0)).map f).sum
        = f a + ((sliceStep (k + 1) (t.drop k)).map f).sum := by
      simp [sliceStep_cons]
    rw [List.range_succ, List.map_append, List.sum_append] at ih
    simp only [List.map_cons, List.sum_cons, List.map_nil, List.sum_nil, List.map_singleton] at ih
    simp only [hhead, List.map_cons, List.sum_cons]
    omega

theorem count_eq_sum_map {α : Type} [DecidableEq α] (x : α) :
    ∀ l : List α, l.count x = (l.map (fun a => if a = x then 1 else 0)).sum
  | [] => rfl
  | a :: t => by
    rw [List.count_cons, List.map_cons, List.sum_cons, count_eq_sum_map x t]
    by_cases h : a = x
    · simp [h]
      omega
    · simp [h]

/-- Round-robin partition for counts: each card of the deck lands in exactly
one of the `n` slices. -/
theorem count_slices_partition {α : Type} [DecidableEq α] (x : α) {n : Nat} (hn : 0 < n)
    (l : List α) :
    ((List.range n).map (fun i => (sliceStep n (l.drop i)).count x)).sum = l.count x := by
  have h := sum_map_slices (fun a => if a = x then 1 else 0) hn l
  rw [← count_eq_sum_map x l] at h
  rw [← h]
  congr 1
  exact List.map_congr_left (fun i _ => count_eq_sum_map x _)

/-- Round-robin partition for lengths: the slice lengths sum to the deck
size. -/
theorem length_slices_partition {α : Type} {n : Nat} (hn : 0 < n) (l : List α) :
    ((List.range n).map (fun i => (sliceStep n (l.drop i)).length)).sum = l.length := by
  have h := sum_map_slices (fun _ => (1 : Nat)) hn l
  have h2 : ∀ t : List α, (t.map (fun _ => (1 : Nat))).sum = t.length := by
    intro t
    induction t with
    | nil => rfl
    | cons b u ih => simp [ih]; omega
  rw [h2 l] at h
  rw [← h]
  exact congrArg List.sum (List.map_congr_left (fun i _ => (h2 _).symm))

theorem length_sliceStep {α : Type} {n : Nat} (hn : 0 < n) :
    ∀ l : List α, (sliceStep n l).length = (l.length + n - 1) / n := by
  have main : ∀ (m : Nat) (l : List α), l.length ≤ m →
      (sliceStep n l).length = (l.length + n - 1) / n := by
    intro m
    induction m with
    | zero =>
      intro l hl
      obtain rfl : l = [] := List.eq_nil_of_length_eq_zero (by omega)
      simp [Nat.div_eq_of_lt (show n - 1 < n by omega)]
    | succ k ihm =>
      intro l hl
      cases l with
      | nil => simp [Nat.div_eq_of_lt (show n - 1 < n by omega)]
      | cons a t =>
        simp only [sliceStep_cons, List.length_cons]
        rw [ihm (t.drop (n - 1))
            (by simp only [List.length_drop, List.length_cons] at hl ⊢; omega),
          List.length_drop]
        have harith : t.length + 1 + n - 1 = t.length + n := by omega
        rw [harith]
        by_cases htn : n - 1 ≤ t.length
        · rw [show t.length - (n - 1) + n - 1 = t.length from by omega,
            Nat.add_div_right _ hn]
        · rw [show t.length - (n - 1) = 0 from by omega,
            Nat.div_eq_of_lt (show 0 + n - 1 < n by omega),
            Nat.add_div_right _ hn,
            Nat.div_eq_of_lt (show t.length < n by omega)]
  exact fun l => main l.length l le_rfl

theorem div_le_div_succ {a b n : Nat} (hn : 0 < n) (h : a ≤ b + (n - 1)) :
    a / n ≤ b / n + 1 := by
  calc a / n ≤ (b + (n - 1)) / n := Nat.div_le_div_right h
    _ ≤ b / n + 1 := by
        rw [Nat.add_div hn, Nat.div_eq_of_lt (show n - 1 < n by omega)]
        split_ifs <;> omega

theorem sliceStep_getD {α : Type} {n : Nat} (hn : 0 < n) (d : α) :
    ∀ (l : List α) (j : Nat), (sliceStep n l).getD j d = l.getD (j * n) d := by
  have main : ∀ (m : Nat) (l : List α), l.length ≤ m → ∀ j : Nat,
      (sliceStep n l).getD j d = l.getD (j * n) d := by
    intro m
    induction m with
    | zero =>
      intro l hl j
      obtain rfl : l = [] := List.eq_nil_of_length_eq_zero (by omega)
      simp
    | succ k ihm =>
      intro l hl j
      cases l with
      | nil => simp
      | cons a t =>
        rw [sliceStep_cons]
        cases j with
        | zero => simp
        | succ i =>
          rw [List.getD_eq_getElem?_getD, List.getElem?_cons_succ,
            ← List.getD_eq_getElem?_getD,
            ihm (t.drop (n - 1))
              (by simp only [List.length_drop, List.length_cons] at hl ⊢; omega) i,
            List.getD_eq_getElem?_getD, List.getElem?_drop,
            ← List.getD_eq_getElem?_getD,
            List.getD_eq_getElem?_getD (a :: t),
            show (i + 1) * n = (n - 1 + i * n) + 1 from by
              rw [Nat.succ_mul]; omega,
            List.getElem?_cons_succ, ← List.getD_eq_getElem?_getD]
  exact fun l => main l.length l le_rfl

theorem dictGet_handOf_getD (cards : List Suit) (s : Suit) :
    (dictGet (handOf cards) s).getD 0 = (cards.count s : Int) := by
  rw [handOf, dictGet_map_tag]
  by_cases h : s ∈ cards.dedup
  · simp [h]
  · have hz : cards.count s = 0 := by
      rw [List.count_eq_zero]
      exact fun hc => h (List.mem_dedup.mpr hc)
    simp [h, hz]

theorem handOf_sum (cards : List Suit) :
    ((handOf cards).map Prod.snd).sum = (cards.length : Int) := by
  rw [handOf, List.map_map]
  rw [show cards.dedup.map (Prod.snd ∘ fun s => (s, (cards.count s : Int)))
        = (cards.dedup.map (fun s => cards.count s)).map (fun k : Nat => (k : Int)) from by
      rw [List.map_map]; exact List.map_congr_left (fun _ _ => rfl)]
  rw [← Nat.cast_list_sum, List.sum_map_count_dedup_eq_length]

theorem enum_tally_sum (players : List String) (g : Nat → Nat) :
    (players.enum.map (fun ip => (g ip.1 : Int))).sum
      = (((List.range players.length).map g).sum : Int) := by
  rw [show players.enum.map (fun ip => (g ip.1 : Int))
        = (players.enum.map Prod.fst).map (fun i => (g i : Int)) from by
      rw [List.map_map]; exact List.map_congr_left (fun _ _ => rfl),
    List.enum_map_fst,
    show (List.range players.length).map (fun i => (g i : Int))
        = ((List.range players.length).map g).map (fun k : Nat => (k : Int)) from by
      rw [List.map_map]; exact List.map_congr_left (fun _ _ => rfl)]
  exact (Nat.cast_list_sum _).symm

/-- C7: `distribute_cards` deals round-robin — the `j`-th card of player `i`'s
hand is deck card `i + j·N` — and partitions the deck exactly: per-suit counts
over all hands sum to the deck's per-suit counts, total dealt cards equal the
deck size, and any two hand sizes differ by at most one. -/
theorem distribute_cards_spec (all_cards : List Suit) (players : List String)
    (hne : players ≠ []) :
    (∀ s : Suit,
      ((distribute_cards all_cards players).map
        (fun pc => (dictGet pc.2 s).getD 0)).sum = (all_cards.count s : Int)) ∧
    (((distribute_cards all_cards players).map
        (fun pc => (pc.2.map Prod.snd).sum)).sum = (all_cards.length : Int)) ∧
    (∀ i, i < players.length → ∀ j (d : Suit),
      (sliceStep players.length (all_cards.drop i)).getD j d
        = all_cards.getD (i + j * players.length) d) ∧
    (∀ pc1 pc2, pc1 ∈ distribute_cards all_cards players →
      pc2 ∈ distribute_cards all_cards players →
      (pc1.2.map Prod.snd).sum ≤ (pc2.2.map Prod.snd).sum + 1) := by
  have hN : 0 < players.length := List.length_pos.mpr hne
  refine ⟨?_, ?_, ?_, ?_⟩
  · intro s
    rw [distribute_cards, List.map_map]
    rw [show players.enum.map
          ((fun pc => (dictGet pc.2 s).getD 0) ∘
            (fun ip => (ip.2, handOf (sliceStep players.length (all_cards.drop ip.1)))))
        = players.enum.map
            (fun ip => ((sliceStep players.length (all_cards.drop ip.1)).count s : Int))
        from List.map_congr_left (fun ip _ => dictGet_handOf_getD _ s)]
    rw [enum_tally_sum players (fun i => (sliceStep players.length (all_cards.drop i)).count s)]
    rw [count_slices_partition s hN all_cards]
  · rw [distribute_cards, List.map_map]
    rw [show players.enum.map
          ((fun pc => (pc.2.map Prod.snd).sum) ∘
            (fun ip => (ip.2, handOf (sliceStep players.length (all_cards.drop ip.1)))))
        = players.enum.map
            (fun ip => ((sliceStep players.length (all_cards.drop ip.1)).length : Int))
        from List.map_congr_left (fun ip _ => handOf_sum _)]
    rw [enum_tally_sum players (fun i => (sliceStep players.length (all_cards.drop i)).length)]
    rw [length_slices_partition hN all_cards]
  · intro i hi j d
    rw [sliceStep_getD hN d (all_cards.drop i) j,
      List.getD_eq_getElem?_getD, List.getElem?_drop, ← List.getD_eq_getElem?_getD]
  · intro pc1 pc2 h1 h2
    rw [distribute_cards] at h1 h2
    obtain ⟨ip1, hip1, rfl⟩ := List.mem_map.mp h1
    obtain ⟨ip2, hip2, rfl⟩ := List.mem_map.mp h2
    have hi1 : ip1.1 < players.length := List.fst_lt_of_mem_enum hip1
    have hi2 : ip2.1 < players.length := List.fst_lt_of_mem_enum hip2
    rw [handOf_sum, handOf_sum,
      length_sliceStep hN (all_cards.drop ip1.1), length_sliceStep hN (all_cards.drop ip2.1),
      List.length_drop, List.length_drop]
    have hdiv := div_le_div_succ (a := all_cards.length - ip1.1 + players.length - 1)
      (b := all_cards.length - ip2.1 + players.length - 1) hN (by omega)
    have := Int.ofNat_le.mpr hdiv
    push_cast at this ⊢
    omega

/-- Witness for C7 on the concrete two-card deck dealt to two players. -/
theorem distribute_cards_spec_witness :
    ((distribute_cards [Suit.hearts, Suit.spades] ["A", "B"]).map
      (fun pc => (dictGet pc.2 Suit.hearts).getD 0)).sum
      = (([Suit.hearts, Suit.spades] : List Suit).count Suit.hearts : Int) :=
  (distribute_cards_spec [Suit.hearts, Suit.spades] ["A", "B"] (by decide)).1 Suit.hearts

/-- Invariant of the `calculate_winner` fold: the result is an upper bound of
all scores in the remaining list, and it is either the incoming accumulator or
the first entry of the list attaining the new strictly-larger maximum. -/
theorem winnerLoop_spec (st : GameState) :
    ∀ (l : List (String × List (Suit × Int))) (w : String) (m : Int),
      (∀ pc, pc ∈ l → (dictGet st.player2cash pc.1).isSome) →
      ∃ w2 m2, winnerLoop st l w m = some (w2, m2) ∧ m ≤ m2 ∧
        (∀ pc, pc ∈ l → scoreOf st pc.1 pc.2 ≤ m2) ∧
        ((w2 = w ∧ m2 = m) ∨
          ∃ pre cards post, l = pre ++ (w2, cards) :: post ∧
            scoreOf st w2 cards = m2 ∧ m < m2 ∧
            ∀ pc, pc ∈ pre → scoreOf st pc.1 pc.2 < m2) := by
  intro l
  induction l with
  | nil =>
    intro w m hc
    exact ⟨w, m, rfl, le_refl m, by simp, Or.inl ⟨rfl, rfl⟩⟩
  | cons hd rest ih =>
    intro w m hc
    obtain ⟨pid, cards⟩ := hd
    obtain ⟨cash, hcash⟩ : ∃ x, dictGet st.player2cash pid = some x :=
      Option.isSome_iff_exists.mp (hc (pid, cards) (List.mem_cons_self _ _))
    have hscore : scoreOf st pid cards = (dictGet cards st.goal_suit).getD 0 * 10 + cash := by
      rw [scoreOf, hcash]
      rfl
    by_cases hlt : m < (dictGet cards st.goal_suit).getD 0 * 10 + cash
    · obtain ⟨w2, m2, hloop, hle, hall, hcase⟩ :=
        ih pid ((dictGet cards st.goal_suit).getD 0 * 10 + cash)
          (fun pc hpc => hc pc (List.mem_cons_of_mem _ hpc))
      refine ⟨w2, m2, ?_, by omega, ?_, ?_⟩
      · simp only [winnerLoop, hcash, if_pos hlt]
        exact hloop
      · intro pc hpc
        rcases List.mem_cons.mp hpc with rfl | hmem
        · show scoreOf st pid cards ≤ m2
          omega
        · exact hall pc hmem
      · rcases hcase with ⟨rfl, rfl⟩ | ⟨pre, c2, post, heq, hsc, hmlt, hpre⟩
        · exact Or.inr ⟨[], cards, rest, rfl, hscore, by omega, by simp⟩
        · refine Or.inr ⟨(pid, cards) :: pre, c2, post, by rw [heq, List.cons_append], hsc, by omega, ?_⟩
          intro pc hpc
          rcases List.mem_cons.mp hpc with rfl | hmem
          · show scoreOf st pid cards < m2
            omega
          · exact hpre pc hmem
    · obtain ⟨w2, m2, hloop, hle, hall, hcase⟩ :=
        ih w m (fun pc hpc => hc pc (List.mem_cons_of_mem _ hpc))
      refine ⟨w2, m2, ?_, hle, ?_, ?_⟩
      · simp only [winnerLoop, hcash, if_neg hlt]
        exact hloop
      · intro pc hpc
        rcases List.mem_cons.mp hpc with rfl | hmem
        · show scoreOf st pid cards ≤ m2
          omega
        · exact hall pc hmem
      · rcases hcase with hacc | ⟨pre, c2, post, heq, hsc, hmlt, hpre⟩
        · exact Or.inl hacc
        · refine Or.inr ⟨(pid, cards) :: pre, c2, post, by rw [heq, List.cons_append], hsc, hmlt, ?_⟩
          intro pc hpc
          rcases List.mem_cons.mp hpc with rfl | hmem
          · show scoreOf st pid cards < m2
            omega
          · exact hpre pc hmem

/-- C8: for a non-empty player map whose players all have cash entries and
non-negative scores (as after dealing), `calculate_winner` returns the first
player in `player2cards` iteration order attaining the maximal score
(goal-suit cards × 10 + cash), together with that maximal score. -/
theorem calculate_winner_spec (st : GameState)
    (hne : st.player2cards ≠ [])
    (hcash : ∀ pc, pc ∈ st.player2cards → (dictGet st.player2cash pc.1).isSome)
    (hpos : ∀ pc, pc ∈ st.player2cards → 0 ≤ scoreOf st pc.1 pc.2) :
    ∃ w m, calculate_winner st = some (w, m) ∧
      (∃ pre cards post, st.player2cards = pre ++ (w, cards) :: post ∧
        scoreOf st w cards = m ∧
        ∀ pc, pc ∈ pre → scoreOf st pc.1 pc.2 < m) ∧
      (∀ pc, pc ∈ st.player2cards → scoreOf st pc.1 pc.2 ≤ m) := by
  obtain ⟨w2, m2, hloop, hle, hall, hcase⟩ :=
    winnerLoop_spec st st.player2cards "" (-1) hcash
  refine ⟨w2, m2, hloop, ?_, hall⟩
  rcases hcase with ⟨rfl, rfl⟩ | ⟨pre, cards, post, heq, hsc, hmlt, hpre⟩
  · exfalso
    obtain ⟨pc, hpc⟩ : ∃ pc, pc ∈ st.player2cards := by
      cases hl : st.player2cards with
      | nil => exact absurd hl hne
      | cons a t => exact ⟨a, hl ▸ List.mem_cons_self a t⟩
    have h1 := hall pc hpc
    have h2 := hpos pc hpc
    omega
  · exact ⟨pre, cards, post, heq, hsc, hpre⟩

/-- Witness for C8: in `stateBidA`, the winner is `A` with score 380
(3 hearts × 10 + 350 cash). -/
theorem calculate_winner_spec_witness :
    ∃ w m, calculate_winner stateBidA = some (w, m) ∧
      (∃ pre cards post, stateBidA.player2cards = pre ++ (w, cards) :: post ∧
        scoreOf stateBidA w cards = m ∧
        ∀ pc, pc ∈ pre → scoreOf stateBidA pc.1 pc.2 < m) ∧
      (∀ pc, pc ∈ stateBidA.player2cards → scoreOf stateBidA pc.1 pc.2 ≤ m) :=
  calculate_winner_spec stateBidA (by decide) (by decide) (by decide)

/-- C4 counterexample: in the reachable `statePartial` (hands dealt by
`distribute_cards`, buyer `A` holding no hearts key), `A`'s crossing bid
passes both guards, commits the cash transfer and the seller's card
decrement, then raises `KeyError` on the buyer's missing hearts key — an
observable partial settlement: the hearts total over all players drops by
one and the resting ask survives, refuting "no partial application
observable / totals unchanged by every trade". -/
theorem settlement_partial_counterexample :
    statePartial.player2cards = distribute_cards [Suit.hearts, Suit.spades] ["B", "A"] ∧
    process_add_order statePartial ⟨true, Suit.hearts, 6, "A"⟩ =
      PyResult.exn statePartialAfter ∧
    suitTotal statePartialAfter Suit.hearts = suitTotal statePartial Suit.hearts - 1 ∧
    cashTotal statePartialAfter = cashTotal statePartial ∧
    dictGet statePartialAfter.player2cash "B" = some 355 ∧
    dictGet statePartialAfter.player2cash "A" = some 345 ∧
    (statePartialAfter.orderbook.asks Suit.hearts).price = 5 :=
  ⟨by simp [statePartial, distribute_cards, handOf, dictGet, List.enum, List.enumFrom],
   rfl, by decide, by decide, by decide, by decide, by decide⟩
